import Mathlib

/-!
Shallow embedding of `react-router-action` (src/index.ts): a typed dispatch
helper for web-form submissions.  Form values and parsed values are modelled
by `Value`; JavaScript objects are association lists `List (String × _)`
(keys unique in any object produced by the JS runtime).  `none` models the
JavaScript `undefined` / an absent property.  The zod object schema of an
action is black-boxed as its safe-parse function returning either the parsed
object or the flattened per-field error list (`error.flatten().fieldErrors`,
the only use the code makes of a zod error).  The discriminated-union
composition built by `matchAction` (extend each schema with
`_action: z.literal(name)`, union on `_action`) is embedded explicitly in
`discParse`.
-/

/-- A JavaScript value as it appears in form data or parsed output:
a string, a number (zod coercion can produce these), or a `File`. -/
inductive Value where
  | str (s : String)
  | num (n : Int)
  | file
deriving DecidableEq, Repr

/-- Form data: an ordered list of key/value entries; duplicate keys allowed
(as in the `FormData` web API). -/
abbrev FormData := List (String × Value)

/-- Flattened per-field validation errors: field name → list of messages,
as produced by `zodError.flatten().fieldErrors`. -/
abbrev FieldErrors := List (String × List String)

/-- `obj[k]` on an association list: the value of the first entry with key
`k` (JS objects have unique keys, so first = only). -/
def getField {α : Type} (obj : List (String × α)) (k : String) : Option α :=
  match obj.find? (fun p => p.1 = k) with
  | some p => some p.2
  | none => none

/-- `obj[k] = v` on an association list: override the existing entry in
place if the key is present, otherwise append (JS object key order:
first-insertion order, last write wins for the value). -/
def setField {α : Type} (obj : List (String × α)) (k : String) (v : α) :
    List (String × α) :=
  if obj.any (fun p => p.1 = k) then
    obj.map (fun p => if p.1 = k then (k, v) else p)
  else
    obj ++ [(k, v)]

/-- `Object.fromEntries(formData)`: build a plain object from the entries;
for duplicate keys the last value wins. -/
def fromEntries (fd : List (String × Value)) : List (String × Value) :=
  fd.foldl (fun acc p => setField acc p.1 p.2) []

/-- `formData.get(k)`: the FIRST value for key `k`, or `null` (`none`). -/
def formDataGet (fd : FormData) (k : String) : Option Value :=
  match fd.find? (fun p => p.1 = k) with
  | some p => some p.2
  | none => none

/-- A zod object schema, black-boxed as its safe parse on a plain object:
success yields the parsed (validated, possibly transformed) object holding
exactly the schema's own fields; failure yields the flattened per-field
error list. -/
structure ZodObject where
  spa : List (String × Value) → Except FieldErrors (List (String × Value))

/-- A handler outcome / stored dispatch-response entry.  Every property of
the JS object is optional at runtime; `none` models an absent property or
`undefined`. -/
structure ActionOutput where
  success : Option Bool := none
  data : Option Value := none
  error : Option Value := none
  fieldErrors : Option FieldErrors := none
  init : Option Nat := none
deriving DecidableEq, Repr

/-- An action definition (`createAction` is the identity on these): a schema
paired with a handler.  The handler receives the context's `input` (the
parsed data) and the route args; the `ctx.data` / `ctx.error` helpers are
plain constructors (`ctxData`, `ctxError`) and a handler may also build its
outcome directly. -/
structure MAction (Args : Type) where
  schema : ZodObject
  handler : List (String × Value) → Args → ActionOutput

/-- `ctx.data(data, init?)`: `{ success: true, data, init }`; the second
argument is optional in the source (`none` = not supplied). -/
def ctxData (d : Value) (init : Option Nat) : ActionOutput :=
  { success := some true, data := some d, init := init }

/-- `ctx.error(error, init, fieldErrors?)`:
`{ success: false, error, fieldErrors, init }` (`init` mandatory, the
field-errors argument optional). -/
def ctxError (e : Value) (init : Nat) (fe : Option FieldErrors) :
    ActionOutput :=
  { success := some false, error := some e, fieldErrors := fe,
    init := some init }

/-- The value returned by `data(x, init)` in react-router: the payload
paired with an optional status (`none` = framework default, effectively
200).  The payload here is the Dispatch Response: action name → stored
outcome, at most one entry. -/
structure DataWithResponseInit where
  data : List (String × ActionOutput)
  init : Option Nat
deriving DecidableEq, Repr

/-- The safe parse of `z.discriminatedUnion("_action", [schema_i.extend({
_action: z.literal(name_i) })])` on a plain object: read the `_action`
property; if it is a string naming a registered action, run that action's
extended schema (its own fields plus the `_action` literal, which matches by
construction, so the parsed output is the base output with `_action` set to
the name); otherwise fail with an invalid-discriminator issue at path
`_action`. -/
def discParse {Args : Type} (actions : List (String × MAction Args))
    (obj : List (String × Value)) :
    Except FieldErrors (List (String × Value)) :=
  match getField obj "_action" with
  | some (.str name) =>
    match getField actions name with
    | some act =>
      match act.schema.spa obj with
      | .ok out => .ok (setField out "_action" (.str name))
      | .error e => .error e
    | none => .error [("_action", ["Invalid discriminator value"])]
  | _ => .error [("_action", ["Invalid discriminator value"])]

/-- The property names every plain JavaScript object (such as the action
registry literal passed to `matchAction`) inherits from
`Object.prototype`, as seen by the `in` operator. -/
def objectProtoKeys : List String :=
  ["constructor", "hasOwnProperty", "isPrototypeOf",
   "propertyIsEnumerable", "toLocaleString", "toString", "valueOf",
   "__proto__", "__defineGetter__", "__defineSetter__",
   "__lookupGetter__", "__lookupSetter__"]

/-- The JavaScript `in` operator applied to a plain-object action registry
(`action in actions`, `src/index.ts` line 149): true for the registry's
own keys AND for the property names inherited from `Object.prototype`
through the prototype chain. -/
def inActions {Args : Type} (actions : List (String × MAction Args))
    (a : String) : Bool :=
  (getField actions a).isSome || objectProtoKeys.contains a

/-- `matchAction(args, actions)` applied to the request's form data
(`src/index.ts` lines 105–161).  Empty registry: `data({}, 400)`.
Otherwise parse `Object.fromEntries(formData)` against the discriminated
union.  On success, run the matched handler on `result.data`, extract and
delete `init` from its outcome, and return the single-entry response with
that init.  On failure, if the raw `formData.get("_action")` is a string
passing the `action in actions` test (an own registered key, or a name
inherited from `Object.prototype` — JS `in` walks the prototype chain),
return that key with `{ success: false, fieldErrors }` at 400; otherwise
`data({}, 400)`. -/
def matchAction {Args : Type} (args : Args)
    (actions : List (String × MAction Args)) (fd : FormData) :
    DataWithResponseInit :=
  if actions.isEmpty then ⟨[], some 400⟩
  else
    match discParse actions (fromEntries fd) with
    | .ok parsed =>
      let name := match getField parsed "_action" with
        | some (.str n) => n
        | _ => ""
      match getField actions name with
      | some act =>
        let output := act.handler parsed args
        let init := output.init
        ⟨[(name, { output with init := none })], init⟩
      | none => ⟨[], some 400⟩
    | .error ferr =>
      match formDataGet fd "_action" with
      | some (.str a) =>
        if inActions actions a then
          ⟨[(a, { success := some false, fieldErrors := some ferr })],
            some 400⟩
        else ⟨[], some 400⟩
      | _ => ⟨[], some 400⟩

/-- The context `input` handed to the matched handler (`src/index.ts` lines
124–128): on the validation-success path it is `result.data`, the parse
output of the discriminated union; on every other path no handler runs. -/
def handlerInput {Args : Type} (actions : List (String × MAction Args))
    (fd : FormData) : Option (List (String × Value)) :=
  if actions.isEmpty then none
  else
    match discParse actions (fromEntries fd) with
    | .ok parsed => some parsed
    | .error _ => none

/-- The normalized field errors returned by `actionResult`: in `"all"` mode
each field keeps its full list; in `"first"` mode each field maps to a
single string. -/
inductive FieldErrorsOut where
  | allMode (fe : List (String × List String))
  | firstMode (fe : List (String × String))
deriving DecidableEq, Repr

/-- The Normalized Result returned by `actionResult`. -/
structure ActionResultOut where
  success : Option Bool := none
  data : Option Value := none
  error : Option Value := none
  fieldErrors : Option FieldErrorsOut := none
deriving DecidableEq, Repr

/-- The reduce callback of the `"first"`-mode collapse (`src/index.ts`
lines 210–214): `const error = errors?.[0]; if (error) acc[field] = error;
return acc;` — keep a field only when its first error is truthy (a
non-empty string). -/
def collapseStep (acc : List (String × String)) (p : String × List String) :
    List (String × String) :=
  match p.2.head? with
  | some e => if e = "" then acc else setField acc p.1 e
  | none => acc

/-- The `"first"`-mode collapse (`src/index.ts` lines 210–214):
`Object.entries(fieldErrors).reduce(collapseStep, {})`. -/
def collapseFirst (fe : List (String × List String)) :
    List (String × String) :=
  fe.foldl collapseStep []

/-- `actionResult(result, action, options)` (`src/index.ts` lines 184–221).
`errorsOpt` models `options?.errors` (so `none` covers both a missing
options bag and a missing `errors` entry).  `result?.[action]?.success ===
undefined` → `{ success: undefined }`; success → `{ success: true, data }`;
failure → `{ success: false, error, fieldErrors }` with the collapse applied
unless `errors === "all"`, and only when `fieldErrors` is present. -/
def actionResult (result : Option (List (String × ActionOutput)))
    (action : String) (errorsOpt : Option String) : ActionResultOut :=
  match result.bind (fun m => getField m action) with
  | none => { success := none }
  | some o =>
    match o.success with
    | none => { success := none }
    | some true => { success := some true, data := o.data }
    | some false =>
      let fe :=
        if errorsOpt ≠ some "all" then
          match o.fieldErrors with
          | some l => some (FieldErrorsOut.firstMode (collapseFirst l))
          | none => none
        else o.fieldErrors.map FieldErrorsOut.allMode
      { success := some false, error := o.error, fieldErrors := fe }

/-- The per-field contribution of the `"first"`-mode collapse: the first
error of the list when it is a non-empty string, nothing otherwise. -/
def firstError (p : String × List String) : Option (String × String) :=
  match p.2.head? with
  | some e => if e = "" then none else some (p.1, e)
  | none => none

/-- Whether the raw submitted discriminator (`formData.get("_action")`,
the value the validation-failure path of `matchAction` inspects) names no
recognized action: it is missing, not a string, or not the name of a
registered action (an own key of the registry).  Note this is strictly
about registered actions; the code's `action in actions` test additionally
accepts names inherited from `Object.prototype` (see `inActions`). -/
def rawActionUnrecognized {Args : Type}
    (actions : List (String × MAction Args)) (fd : FormData) : Bool :=
  match formDataGet fd "_action" with
  | some (.str a) => !(getField actions a).isSome
  | _ => true

/-- Concrete fixture: a schema requiring a string field `value` (its parsed
output is that single field). -/
def echoSchema : ZodObject :=
  ⟨fun obj =>
    match getField obj "value" with
    | some (.str s) => .ok [("value", .str s)]
    | _ => .error [("value", ["Required"])]⟩

/-- Concrete fixture: an action over `echoSchema` whose handler answers
`ctx.data("pong", 201)`. -/
def echoAction : MAction Unit :=
  { schema := echoSchema,
    handler := fun _ _ => ctxData (.str "pong") (some 201) }

/-- Concrete fixture: form data submitting `_action=echo, value=hi`. -/
def fdEcho : FormData := [("_action", .str "echo"), ("value", .str "hi")]

/-- Concrete fixture: an action with an empty schema whose handler echoes
back, as its success data, the `_action` value it finds in its own `input`
(or the string `"missing"` when `input` has no `_action` field). -/
def probeAction : MAction Unit :=
  { schema := ⟨fun _ => .ok []⟩,
    handler := fun inp _ =>
      ctxData
        (.str (match getField inp "_action" with
          | some (.str s) => s
          | _ => "missing"))
        none }

/-- Concrete fixture: a dispatch response whose failed entry has a field
error list whose first element is the empty string. -/
def emptyFirstResponse : List (String × ActionOutput) :=
  [("t", { success := some false, fieldErrors := some [("a", [""])] })]

/-- Concrete fixture: a dispatch response with a failed entry carrying an
error payload and two field error lists (one of them empty). -/
def failedResponse : List (String × ActionOutput) :=
  [("t", { success := some false, error := some (.str "bad"),
           fieldErrors := some [("a", ["x", "y"]), ("b", [])] })]

/-- Concrete fixture: a dispatch response with a failed entry whose field
`a` has a non-empty error list starting with the empty string. -/
def mixedResponse : List (String × ActionOutput) :=
  [("t", { success := some false,
           fieldErrors := some [("a", ["", "x"])] })]

lemma getField_nil {α : Type} (k : String) :
    getField ([] : List (String × α)) k = none := rfl

lemma isEmpty_false_of_getField {α : Type} {l : List (String × α)}
    {k : String} {v : α} (h : getField l k = some v) :
    l.isEmpty = false := by
  cases l with
  | nil => simp [getField, List.find?] at h
  | cons p t => rfl

lemma find?_map_override {α : Type} (k : String) (v : α) :
    ∀ (obj : List (String × α)), obj.any (fun p => p.1 = k) = true →
      (obj.map (fun p => if p.1 = k then (k, v) else p)).find?
        (fun p => p.1 = k) = some (k, v)
  | [], h => by simp at h
  | p :: t, h => by
    by_cases hp : p.1 = k
    · simp [hp, List.find?]
    · have ht : t.any (fun p => p.1 = k) = true := by
        simp only [List.any_cons, decide_eq_true_eq, hp] at h
        simpa using h
      simpa [hp, List.find?] using find?_map_override k v t ht

lemma find?_append_last {α : Type} (k : String) (v : α) :
    ∀ (obj : List (String × α)), obj.any (fun p => p.1 = k) = false →
      (obj ++ [(k, v)]).find? (fun p => p.1 = k) = some (k, v)
  | [], _ => by simp [List.find?]
  | p :: t, h => by
    simp only [List.any_cons, Bool.or_eq_false_iff, decide_eq_false_iff_not]
      at h
    simpa [h.1, List.find?] using find?_append_last k v t h.2

lemma getField_setField_self {α : Type} (obj : List (String × α))
    (k : String) (v : α) : getField (setField obj k v) k = some v := by
  unfold getField setField
  by_cases h : obj.any (fun p => p.1 = k)
  · rw [if_pos h, find?_map_override k v obj h]
  · rw [if_neg h, find?_append_last k v obj (Bool.eq_false_iff.mpr h)]

lemma discParse_ok {Args : Type} {actions : List (String × MAction Args)}
    {obj parsed : List (String × Value)}
    (h : discParse actions obj = .ok parsed) :
    ∃ name act out, getField obj "_action" = some (.str name) ∧
      getField actions name = some act ∧
      act.schema.spa obj = .ok out ∧
      parsed = setField out "_action" (.str name) := by
  unfold discParse at h
  split at h
  case h_1 name hd =>
    split at h
    case h_1 act ha =>
      split at h
      case h_1 out hs =>
        cases h
        exact ⟨name, act, out, hd, ha, hs, rfl⟩
      case h_2 => cases h
    case h_2 => cases h
  case h_2 => cases h

lemma firstError_eq_some {p : String × List String} {q : String × String}
    (h : firstError p = some q) :
    q.1 = p.1 ∧ p.2.head? = some q.2 ∧ q.2 ≠ "" := by
  unfold firstError at h
  split at h
  case h_1 e hh =>
    by_cases he : e = ""
    · rw [if_pos he] at h; cases h
    · rw [if_neg he] at h
      cases h
      exact ⟨rfl, hh, he⟩
  case h_2 => cases h

lemma collapse_foldl_eq_append :
    ∀ (fe : List (String × List String)) (acc : List (String × String)),
      (∀ q ∈ fe, acc.any (fun r => r.1 = q.1) = false) →
      (fe.map Prod.fst).Nodup →
      fe.foldl collapseStep acc = acc ++ fe.filterMap firstError
  | [], acc, _, _ => by simp
  | p :: t, acc, hdisj, hnd => by
    have hndt : (t.map Prod.fst).Nodup := (List.nodup_cons.mp hnd).2
    have hpt : p.1 ∉ t.map Prod.fst := (List.nodup_cons.mp hnd).1
    rw [List.foldl_cons]
    cases hh : p.2.head? with
    | none =>
      have hfp : firstError p = none := by unfold firstError; simp [hh]
      have hstep : collapseStep acc p = acc := by
        unfold collapseStep; simp [hh]
      rw [List.filterMap_cons_none hfp, hstep]
      exact collapse_foldl_eq_append t acc
        (fun q hq => hdisj q (List.mem_cons_of_mem p hq)) hndt
    | some e =>
      by_cases he : e = ""
      · have hfp : firstError p = none := by
          unfold firstError; simp [hh, he]
        have hstep : collapseStep acc p = acc := by
          unfold collapseStep; simp [hh, he]
        rw [List.filterMap_cons_none hfp, hstep]
        exact collapse_foldl_eq_append t acc
          (fun q hq => hdisj q (List.mem_cons_of_mem p hq)) hndt
      · have h0 := hdisj p (List.mem_cons_self p t)
        have hset : setField acc p.1 e = acc ++ [(p.1, e)] := by
          unfold setField
          rw [if_neg (by rw [h0]; simp)]
        have hstep : collapseStep acc p = acc ++ [(p.1, e)] := by
          unfold collapseStep; simp [hh, he, hset]
        have hfp : firstError p = some (p.1, e) := by
          unfold firstError; simp [hh, he]
        have hdisj2 : ∀ q ∈ t, ((acc ++ [(p.1, e)]).any
            (fun r => r.1 = q.1)) = false := by
          intro q hq
          have h1 := hdisj q (List.mem_cons_of_mem p hq)
          have h2 : p.1 ≠ q.1 := by
            intro hc
            exact hpt (hc ▸ List.mem_map_of_mem Prod.fst hq)
          simp only [List.any_append, h1, Bool.false_or, List.any_cons,
            List.any_nil, Bool.or_false, decide_eq_false_iff_not]
          exact h2
        rw [List.filterMap_cons_some hfp, hstep,
          collapse_foldl_eq_append t (acc ++ [(p.1, e)]) hdisj2 hndt]
        simp

lemma collapseFirst_eq_filterMap {fe : List (String × List String)}
    (hnd : (fe.map Prod.fst).Nodup) :
    collapseFirst fe = fe.filterMap firstError := by
  unfold collapseFirst
  rw [collapse_foldl_eq_append fe [] (fun q _ => rfl) hnd]
  simp

lemma getField_eq_none_of_not_key {α : Type} {l : List (String × α)}
    {f : String} (h : ∀ q ∈ l, q.1 ≠ f) : getField l f = none := by
  unfold getField
  have hf : l.find? (fun p => p.1 = f) = none := by
    rw [List.find?_eq_none]
    intro x hx
    simpa using h x hx
  rw [hf]

lemma getField_cons_self {α : Type} {p : String × α} (t : List (String × α))
    {f : String} (hp : p.1 = f) : getField (p :: t) f = some p.2 := by
  unfold getField
  rw [List.find?_cons_of_pos _ (by simpa using hp)]

lemma getField_cons_ne {α : Type} {p : String × α} (t : List (String × α))
    {f : String} (hp : p.1 ≠ f) : getField (p :: t) f = getField t f := by
  unfold getField
  rw [List.find?_cons_of_neg _ (by simpa using hp)]

lemma getField_filterMap_firstError :
    ∀ (fe : List (String × List String)), (fe.map Prod.fst).Nodup →
      ∀ f, getField (fe.filterMap firstError) f =
        ((getField fe f).bind List.head?).bind
          (fun e => if e = "" then none else some e)
  | [], _, f => rfl
  | p :: t, hnd, f => by
    have hndt : (t.map Prod.fst).Nodup := (List.nodup_cons.mp hnd).2
    have hpt : p.1 ∉ t.map Prod.fst := (List.nodup_cons.mp hnd).1
    have ih := getField_filterMap_firstError t hndt f
    by_cases hp : p.1 = f
    · have htnone : getField (t.filterMap firstError) f = none := by
        apply getField_eq_none_of_not_key
        intro q hq
        obtain ⟨r, hr, hgr⟩ := List.mem_filterMap.mp hq
        rw [(firstError_eq_some hgr).1, ← hp]
        intro hc
        exact hpt (hc ▸ List.mem_map_of_mem Prod.fst hr)
      rw [getField_cons_self t hp, Option.some_bind]
      cases hh : p.2.head? with
      | none =>
        have hfp : firstError p = none := by unfold firstError; simp [hh]
        rw [List.filterMap_cons_none hfp, Option.none_bind]
        exact htnone
      | some e =>
        rw [Option.some_bind]
        by_cases he : e = ""
        · have hfp : firstError p = none := by
            unfold firstError; simp [hh, he]
          rw [List.filterMap_cons_none hfp, if_pos he]
          exact htnone
        · have hfp : firstError p = some (p.1, e) := by
            unfold firstError; simp [hh, he]
          rw [List.filterMap_cons_some hfp, if_neg he]
          exact getField_cons_self _ hp
    · rw [getField_cons_ne t hp, ← ih]
      cases hfp : firstError p with
      | none => rw [List.filterMap_cons_none hfp]
      | some q =>
        rw [List.filterMap_cons_some hfp]
        have hq : q.1 ≠ f := by
          rw [(firstError_eq_some hfp).1]
          exact hp
        exact getField_cons_ne _ hq

lemma getField_collapseFirst {fe : List (String × List String)}
    (hnd : (fe.map Prod.fst).Nodup) (f : String) :
    getField (collapseFirst fe) f =
      ((getField fe f).bind List.head?).bind
        (fun e => if e = "" then none else some e) := by
  rw [collapseFirst_eq_filterMap hnd]
  exact getField_filterMap_firstError fe hnd f

lemma discParse_eq_ok {Args : Type} {actions : List (String × MAction Args)}
    {fd : FormData} {A : String} {act : MAction Args}
    {out : List (String × Value)}
    (hA : getField actions A = some act)
    (hdisc : getField (fromEntries fd) "_action" = some (.str A))
    (hspa : act.schema.spa (fromEntries fd) = .ok out) :
    discParse actions (fromEntries fd) =
      .ok (setField out "_action" (.str A)) := by
  simp only [discParse, hdisc, hA, hspa]

/-- C1: submitting form data whose `_action` matches registered action `A`
and whose fields satisfy `A`'s schema yields a Dispatch Response containing
exactly the key `A`, mapped to the handler's success outcome with its
`init` removed; the extracted `init` becomes the response init (omitted,
i.e. `none`, when the handler supplied none). -/
theorem matchAction_success_dispatch {Args : Type} (args : Args)
    (actions : List (String × MAction Args)) (fd : FormData) (A : String)
    (act : MAction Args) (out : List (String × Value)) (d : Value)
    (i : Option Nat)
    (hA : getField actions A = some act)
    (hdisc : getField (fromEntries fd) "_action" = some (.str A))
    (hspa : act.schema.spa (fromEntries fd) = .ok out)
    (hhandler : act.handler (setField out "_action" (.str A)) args =
      { success := some true, data := some d, init := i }) :
    matchAction args actions fd =
      ⟨[(A, { success := some true, data := some d })], i⟩ := by
  have hne : actions.isEmpty = false := isEmpty_false_of_getField hA
  have hdp := discParse_eq_ok hA hdisc hspa
  simp only [matchAction, hne, Bool.false_eq_true, if_false, hdp,
    getField_setField_self, hA, hhandler]

/-- Witness for C1 at a concrete registry, handler and form submission. -/
theorem matchAction_success_dispatch_witness :
    matchAction () [("echo", echoAction)] fdEcho =
      ⟨[("echo", { success := some true, data := some (.str "pong") })],
        some 201⟩ :=
  matchAction_success_dispatch () [("echo", echoAction)] fdEcho "echo"
    echoAction [("value", .str "hi")] (.str "pong") (some 201)
    rfl rfl rfl rfl

/-- C2: when validation fails and the raw submitted `_action` value is a
string naming a registered action, `matchAction` returns (as a structured
value, never thrown) a Dispatch Response containing only that action's key
with `success: false` and `fieldErrors` equal to the validator's flattened
per-field error list, at status 400. -/
theorem matchAction_validation_failure {Args : Type} (args : Args)
    (actions : List (String × MAction Args)) (fd : FormData)
    (a : String) (act : MAction Args) (ferr : FieldErrors)
    (herr : discParse actions (fromEntries fd) = .error ferr)
    (hget : formDataGet fd "_action" = some (.str a))
    (hreg : getField actions a = some act) :
    matchAction args actions fd =
      ⟨[(a, { success := some false, fieldErrors := some ferr })],
        some 400⟩ := by
  have hne : actions.isEmpty = false := isEmpty_false_of_getField hreg
  have hin : inActions actions a = true := by
    simp [inActions, hreg]
  simp only [matchAction, hne, Bool.false_eq_true, if_false, herr, hget,
    hin, if_true]

/-- Witness for C2: submitting `_action=echo` without the required `value`
field fails validation and reports the flattened field errors at 400. -/
theorem matchAction_validation_failure_witness :
    matchAction () [("echo", echoAction)] [("_action", Value.str "echo")] =
      ⟨[("echo",
        { success := some false,
          fieldErrors := some [("value", ["Required"])] })], some 400⟩ :=
  matchAction_validation_failure () [("echo", echoAction)]
    [("_action", Value.str "echo")] "echo" echoAction
    [("value", ["Required"])] rfl rfl rfl

/-- C3 counterexample: the claim says the `_action` discriminator is not
present in the handler's `input`; but with a registered action `probe`
whose handler echoes back the `_action` field it finds in its own `input`,
the dispatched data is `"probe"` (not `"missing"`), and `handlerInput` —
the `result.data` passed as `ctx.input` — literally contains the entry
`("_action", "probe")`. -/
theorem matchAction_input_keeps_discriminator_cex :
    handlerInput [("probe", probeAction)]
        [("_action", Value.str "probe")] =
      some [("_action", Value.str "probe")] ∧
    getField [("_action", Value.str "probe")] "_action" =
      some (Value.str "probe") ∧
    matchAction () [("probe", probeAction)]
        [("_action", Value.str "probe")] =
      ⟨[("probe",
        { success := some true, data := some (Value.str "probe") })],
        none⟩ := by
  decide

/-- C3 (amended): on validation success the context's `input` is the full
validated parse output, which INCLUDES the `_action` discriminator field
mapped to the matched action's name. -/
theorem matchAction_input_is_full_parsed_data {Args : Type}
    (actions : List (String × MAction Args)) (fd : FormData) (A : String)
    (act : MAction Args) (out : List (String × Value))
    (hA : getField actions A = some act)
    (hdisc : getField (fromEntries fd) "_action" = some (.str A))
    (hspa : act.schema.spa (fromEntries fd) = .ok out) :
    handlerInput actions fd = some (setField out "_action" (.str A)) ∧
    getField (setField out "_action" (.str A)) "_action" =
      some (.str A) := by
  have hne : actions.isEmpty = false := isEmpty_false_of_getField hA
  have hdp := discParse_eq_ok hA hdisc hspa
  constructor
  · simp only [handlerInput, hne, Bool.false_eq_true, if_false, hdp]
  · exact getField_setField_self out "_action" (.str A)

/-- Witness for the amended C3 at a concrete registry and submission. -/
theorem matchAction_input_is_full_parsed_data_witness :
    handlerInput [("echo", echoAction)] fdEcho =
      some (setField [("value", Value.str "hi")] "_action"
        (Value.str "echo")) ∧
    getField
      (setField [("value", Value.str "hi")] "_action" (Value.str "echo"))
      "_action" = some (Value.str "echo") :=
  matchAction_input_is_full_parsed_data [("echo", echoAction)] fdEcho
    "echo" echoAction [("value", Value.str "hi")] rfl rfl rfl

lemma isEmpty_false_of_not_true {α : Type} {l : List α}
    (h : ¬ l.isEmpty = true) : l.isEmpty = false := by
  cases he : l.isEmpty
  · rfl
  · exact absurd he h

/-- C4 (code bug): the dispatcher evaluated at the failing input —
registry `{echo}`, submission `_action=toString`.  Validation fails and
`toString` is NOT a registered action (third conjunct), yet the response
is the non-empty `{toString: {success: false, fieldErrors}}` at 400 rather
than the empty 400 response the claim requires, because the failure
branch's `action in actions` test also accepts property names inherited
from `Object.prototype`. -/
theorem matchAction_prototype_chain_leak :
    matchAction () [("echo", echoAction)]
        [("_action", Value.str "toString")] =
      ⟨[("toString",
        { success := some false,
          fieldErrors :=
            some [("_action", ["Invalid discriminator value"])] })],
        some 400⟩ ∧
    matchAction () [("echo", echoAction)]
        [("_action", Value.str "toString")] ≠ ⟨[], some 400⟩ ∧
    (getField [("echo", echoAction)] "toString").isSome = false := by
  decide

/-- C5: the Dispatch Response contains at most one key, and zero keys only
when the registry is empty or no recognized action name was submitted (the
raw `_action` discriminator is missing, not a string, or unregistered). -/
theorem matchAction_at_most_one_key {Args : Type} (args : Args)
    (actions : List (String × MAction Args)) (fd : FormData) :
    (matchAction args actions fd).data.length ≤ 1 ∧
      ((matchAction args actions fd).data = [] →
        actions.isEmpty = true ∨
          rawActionUnrecognized actions fd = true) := by
  by_cases hne : actions.isEmpty = true
  · simp [matchAction, hne]
  · have hne' := isEmpty_false_of_not_true hne
    cases hdp : discParse actions (fromEntries fd) with
    | ok parsed =>
      obtain ⟨name, act, out, hd, ha, hs, hp⟩ := discParse_ok hdp
      have hname : getField parsed "_action" = some (.str name) := by
        rw [hp]; exact getField_setField_self out "_action" (.str name)
      simp [matchAction, hne', hdp, hname, ha]
    | error ferr =>
      cases hg : formDataGet fd "_action" with
      | none => simp [matchAction, rawActionUnrecognized, hne', hdp, hg]
      | some v =>
        cases v with
        | str a =>
          cases hin : inActions actions a with
          | true =>
            simp [matchAction, rawActionUnrecognized, hne', hdp, hg, hin]
          | false =>
            have hown : (getField actions a).isSome = false := by
              cases ho : (getField actions a).isSome
              · rfl
              · unfold inActions at hin
                rw [ho] at hin
                simp at hin
            simp [matchAction, rawActionUnrecognized, hne', hdp, hg, hin,
              hown]
        | num n => simp [matchAction, rawActionUnrecognized, hne', hdp, hg]
        | file => simp [matchAction, rawActionUnrecognized, hne', hdp, hg]

/-- Witness for C5: with an empty registry the response has zero keys, and
the theorem's implication then reports the empty-registry case. -/
theorem matchAction_at_most_one_key_witness :
    ([] : List (String × MAction Unit)).isEmpty = true ∨
      rawActionUnrecognized ([] : List (String × MAction Unit)) [] =
        true :=
  (matchAction_at_most_one_key () [] []).2 rfl

/-- C6: no outcome stored in the Dispatch Response carries the `init`
field: the dispatcher deletes it (success path) or never writes it
(validation-failure path), so every stored entry has `init = none`. -/
theorem matchAction_no_init_in_outcomes {Args : Type} (args : Args)
    (actions : List (String × MAction Args)) (fd : FormData)
    (p : String × ActionOutput)
    (hmem : p ∈ (matchAction args actions fd).data) :
    p.2.init = none := by
  by_cases hne : actions.isEmpty = true
  · simp [matchAction, hne] at hmem
  · have hne' := isEmpty_false_of_not_true hne
    cases hdp : discParse actions (fromEntries fd) with
    | ok parsed =>
      obtain ⟨name, act, out, hd, ha, hs, hp⟩ := discParse_ok hdp
      have hname : getField parsed "_action" = some (.str name) := by
        rw [hp]; exact getField_setField_self out "_action" (.str name)
      simp only [matchAction, hne', Bool.false_eq_true, if_false, hdp,
        hname, ha, List.mem_singleton] at hmem
      rw [hmem]
    | error ferr =>
      cases hg : formDataGet fd "_action" with
      | none => simp [matchAction, hne', hdp, hg] at hmem
      | some v =>
        cases v with
        | str a =>
          cases hin : inActions actions a with
          | true =>
            simp only [matchAction, hne', Bool.false_eq_true, if_false,
              hdp, hg, hin, if_true, List.mem_singleton] at hmem
            rw [hmem]
          | false => simp [matchAction, hne', hdp, hg, hin] at hmem
        | num n => simp [matchAction, hne', hdp, hg] at hmem
        | file => simp [matchAction, hne', hdp, hg] at hmem

/-- Witness for C6 at a concrete successful dispatch. -/
theorem matchAction_no_init_in_outcomes_witness :
    ({ success := some true, data := some (Value.str "pong") } :
      ActionOutput).init = none :=
  matchAction_no_init_in_outcomes () [("echo", echoAction)] fdEcho
    ("echo", { success := some true, data := some (Value.str "pong") })
    (by decide)

/-- C7: `actionResult` on an undefined response, or with the target key
absent, or with the target entry's `success` undefined, returns
`{ success: undefined }` with no data, error or field errors. -/
theorem actionResult_absent
    (result : Option (List (String × ActionOutput))) (action : String)
    (errorsOpt : Option String)
    (h : (result.bind (fun m => getField m action)).bind
      (fun o => o.success) = none) :
    actionResult result action errorsOpt = { success := none } := by
  cases hr : result.bind (fun m => getField m action) with
  | none => simp only [actionResult, hr]
  | some o =>
    have hs : o.success = none := by rw [hr] at h; simpa using h
    simp only [actionResult, hr, hs]

/-- Witness for C7 on the undefined response. -/
theorem actionResult_absent_witness :
    actionResult none "echo" none = { success := none } :=
  actionResult_absent none "echo" none rfl

/-- C8 counterexample: the claim says `"first"` mode drops exactly the
fields with EMPTY error lists; but on a field whose (non-empty) list starts
with the empty string the code drops the field too, so the collapsed result
is `{}` rather than mapping the field to `""`. -/
theorem actionResult_first_mode_cex :
    actionResult (some emptyFirstResponse) "t" none =
      { success := some false,
        fieldErrors := some (.firstMode []) } ∧
    actionResult (some emptyFirstResponse) "t" none ≠
      { success := some false,
        fieldErrors := some (.firstMode [("a", "")]) } := by
  decide

/-- C8 (amended): on a present failed entry, `actionResult` returns
`success: false` with the entry's `error` unchanged; `fieldErrors` is
passed through unmodified in `"all"` mode, and in `"first"` mode (the
default) collapsed so that each field maps to the first element of its
error list, keeping a field only when that first element is a non-empty
string (fields with empty lists, or whose first error is the empty string,
are dropped). -/
theorem actionResult_failed_modes
    (result : Option (List (String × ActionOutput))) (a : String)
    (o : ActionOutput) (fe : FieldErrors)
    (hentry : result.bind (fun m => getField m a) = some o)
    (hsucc : o.success = some false)
    (hfe : o.fieldErrors = some fe)
    (hnd : (fe.map Prod.fst).Nodup) :
    actionResult result a (some "all") =
      { success := some false, error := o.error,
        fieldErrors := some (.allMode fe) } ∧
    actionResult result a none =
      { success := some false, error := o.error,
        fieldErrors := some (.firstMode (collapseFirst fe)) } ∧
    ∀ f, getField (collapseFirst fe) f =
      ((getField fe f).bind List.head?).bind
        (fun e => if e = "" then none else some e) := by
  refine ⟨?_, ?_, fun f => getField_collapseFirst hnd f⟩
  · simp [actionResult, hentry, hsucc, hfe]
  · simp [actionResult, hentry, hsucc, hfe]

/-- Witness for the amended C8 at a concrete failed response. -/
theorem actionResult_failed_modes_witness :
    actionResult (some failedResponse) "t" (some "all") =
      { success := some false, error := some (Value.str "bad"),
        fieldErrors := some (.allMode [("a", ["x", "y"]), ("b", [])]) } ∧
    actionResult (some failedResponse) "t" none =
      { success := some false, error := some (Value.str "bad"),
        fieldErrors := some (.firstMode
          (collapseFirst [("a", ["x", "y"]), ("b", [])])) } :=
  ⟨(actionResult_failed_modes (some failedResponse) "t" _ _
      rfl rfl rfl (by decide)).1,
   (actionResult_failed_modes (some failedResponse) "t" _ _
      rfl rfl rfl (by decide)).2.1⟩

/-- C9: whenever a field is present in both the `"first"`-mode and the
`"all"`-mode output of `actionResult`, the `"first"`-mode value equals the
first element of the `"all"`-mode list. -/
theorem actionResult_first_eq_head_of_all
    (result : Option (List (String × ActionOutput))) (a f : String)
    (f1 : List (String × String)) (fA : List (String × List String))
    (v : String) (l : List String)
    (h1 : (actionResult result a (some "first")).fieldErrors =
      some (.firstMode f1))
    (hA : (actionResult result a (some "all")).fieldErrors =
      some (.allMode fA))
    (hnd : (fA.map Prod.fst).Nodup)
    (hv : getField f1 f = some v)
    (hl : getField fA f = some l) :
    l.head? = some v := by
  cases hr : result.bind (fun m => getField m a) with
  | none => simp [actionResult, hr] at h1
  | some o =>
    cases hs : o.success with
    | none => simp [actionResult, hr, hs] at h1
    | some b =>
      cases b with
      | true => simp [actionResult, hr, hs] at h1
      | false =>
        cases hfe : o.fieldErrors with
        | none => simp [actionResult, hr, hs, hfe] at h1
        | some fe =>
          simp [actionResult, hr, hs, hfe] at h1 hA
          subst hA
          have hchar := getField_collapseFirst hnd f
          rw [h1, hv, hl] at hchar
          simp only [Option.some_bind] at hchar
          cases hh : l.head? with
          | none => rw [hh] at hchar; simp at hchar
          | some e =>
            rw [hh] at hchar
            simp only [Option.some_bind] at hchar
            by_cases he : e = ""
            · rw [if_pos he] at hchar; simp at hchar
            · rw [if_neg he] at hchar
              exact hchar.symm

/-- Witness for C9: with field `a` mapping to `["x", "y"]`, `"first"` mode
reports `"x"`, the head of the `"all"`-mode list. -/
theorem actionResult_first_eq_head_of_all_witness :
    (["x", "y"] : List String).head? = some "x" :=
  actionResult_first_eq_head_of_all (some failedResponse) "t" "a"
    [("a", "x")] [("a", ["x", "y"]), ("b", [])] "x" ["x", "y"]
    (by decide) (by decide) (by decide) (by decide) (by decide)

/-- C10: in `"first"` mode `actionResult` drops a field whose error list's
first element is the empty string, even when that list is non-empty: the
collapse keeps a field only when its first error is a truthy (non-empty)
string. -/
theorem actionResult_first_drops_empty_string
    (result : Option (List (String × ActionOutput))) (a f : String)
    (o : ActionOutput) (fe : FieldErrors) (l : List String)
    (hentry : result.bind (fun m => getField m a) = some o)
    (hsucc : o.success = some false)
    (hfe : o.fieldErrors = some fe)
    (hnd : (fe.map Prod.fst).Nodup)
    (hl : getField fe f = some l)
    (hhead : l.head? = some "") :
    (actionResult result a none).fieldErrors =
      some (.firstMode (collapseFirst fe)) ∧
    getField (collapseFirst fe) f = none ∧ l ≠ [] := by
  refine ⟨?_, ?_, ?_⟩
  · simp [actionResult, hentry, hsucc, hfe]
  · rw [getField_collapseFirst hnd f, hl]
    simp [hhead]
  · intro hc
    rw [hc] at hhead
    simp at hhead

/-- Witness for C10: field `a` has the non-empty list `["", "x"]` and is
nevertheless absent from the collapsed `"first"`-mode field errors. -/
theorem actionResult_first_drops_empty_string_witness :
    (actionResult (some mixedResponse) "t" none).fieldErrors =
      some (.firstMode (collapseFirst [("a", ["", "x"])])) ∧
    getField (collapseFirst [("a", ["", "x"])]) "a" = none ∧
    (["", "x"] : List String) ≠ [] :=
  actionResult_first_drops_empty_string (some mixedResponse) "t" "a"
    _ _ _ rfl rfl rfl (by decide) rfl rfl
